import Mathlib

/-!
# NavixAI backend — shallow embedding and verification

This file embeds the core functions of `backend/api/views.py` of the
NavixAI repository as executable Lean definitions and proves (or refutes)
the frozen specification claims about them.

Modelling conventions:
- Python floats become `ℚ`; machine-level float representation issues do
  not affect any claim checked here.
- Python dicts arriving as JSON payloads become insertion-ordered
  association lists `List (String × _)` (Python dicts iterate in insertion
  order, which `prefs_key` depends on).
- External calls (OpenAI, Google Places, the weather provider, the Django
  cache) are modelled as explicit parameters carrying the call's outcome;
  an exception raised by an external call is one of the outcome
  constructors, so every `try/except` in the source becomes a `match` on
  that outcome.
- Every function here is total; the source's "never raise to the caller"
  contracts correspond to the functions being defined on all inputs.
-/

namespace NavixAI

/-! ## String helpers mirroring Python primitives -/

/-- `startsWithChars l pat`: does `l` start with `pat`? (list-of-chars form). -/
def startsWithChars : List Char → List Char → Bool
  | _, [] => true
  | [], _ :: _ => false
  | a :: as, b :: bs => a == b && startsWithChars as bs

/-- `containsChars l pat`: does `pat` occur contiguously inside `l`?
Mirrors Python's `pat in s` on strings. -/
def containsChars : List Char → List Char → Bool
  | [], pat => pat.isEmpty
  | l@(_ :: as), pat => startsWithChars l pat || containsChars as pat

/-- Python `pat in s` substring test. -/
def strContainsSub (s pat : String) : Bool :=
  containsChars s.toList pat.toList

/-- Python `str.lower()` (ASCII-adequate for the vocabulary used here). -/
def pyLower (s : String) : String :=
  String.mk (s.toList.map Char.toLower)

/-- Helper for `pyTitle`: the Bool records whether the previous character
was alphabetic (cased). -/
def pyTitleAux : Bool → List Char → List Char
  | _, [] => []
  | prev, c :: rest =>
    if c.isAlpha then
      (if prev then c.toLower else c.toUpper) :: pyTitleAux true rest
    else
      c :: pyTitleAux false rest

/-- Python `str.title()`: uppercase each letter that follows a non-letter,
lowercase the other letters. -/
def pyTitle (s : String) : String :=
  String.mk (pyTitleAux false s.toList)

/-! ## Weather snapshot

`get_weather_data` returns the parsed OpenWeatherMap JSON. The fields the
pipeline reads are `weather[0].main`, `weather[0].description`,
`main.temp`, `main.humidity` (optional, read with a default) and `name`
(optional, read with a default). -/

structure Weather where
  main : String
  description : String
  temp : ℚ
  humidity : Option ℚ
  name : Option String
deriving DecidableEq

/-! ## Keyword proposer (`get_multiple_activities_from_ai` and helpers) -/

/-- `valid_keywords` from `filter_valid_activities` in the source. -/
def valid_keywords : List String :=
  ["restaurant", "cafe", "coffee shop", "bar", "pub", "brewery",
   "museum", "art gallery", "library", "theater", "cinema", "movie theater",
   "park", "beach", "hiking trail", "garden", "zoo", "aquarium",
   "shopping mall", "store", "market", "bookstore", "clothing store",
   "gym", "spa", "bowling alley", "arcade", "mini golf",
   "hotel", "tourist attraction", "landmark", "church", "temple",
   "hospital", "pharmacy", "bank", "post office",
   "nightclub", "karaoke", "concert venue", "sports bar",
   "food court", "bakery", "ice cream shop", "fast food"]

/-- The "common single-word activities" accepted verbatim by
`filter_valid_activities`. -/
def common_single_activities : List String :=
  ["restaurant", "cafe", "museum", "park", "cinema", "shopping", "bar", "gym", "spa"]

/-- Split a character list at every character satisfying `p`
(Python `re.split` keeps empty tokens). -/
def splitChars (p : Char → Bool) : List Char → List (List Char)
  | [] => [[]]
  | c :: rest =>
    if p c then [] :: splitChars p rest
    else
      match splitChars p rest with
      | t :: ts => (c :: t) :: ts
      | [] => [[c]]

/-- Python `str.strip()`: drop whitespace from both ends. -/
def trimChars (l : List Char) : List Char :=
  ((l.dropWhile Char.isWhitespace).reverse.dropWhile Char.isWhitespace).reverse

/-- The per-line effect of `re.sub` removing leading numbering
(pattern: one or more digits, a dot, optional whitespace). -/
def stripNumberingChars (l : List Char) : List Char :=
  let ds := l.takeWhile Char.isDigit
  if ds.isEmpty then l
  else
    match l.drop ds.length with
    | '.' :: rest => rest.dropWhile Char.isWhitespace
    | _ => l

/-- The per-line effect of `re.sub` removing a leading bullet
(one dash or asterisk, optional whitespace). -/
def stripBulletChars : List Char → List Char
  | [] => []
  | c :: rest =>
    if c == '-' || c == '*' then rest.dropWhile Char.isWhitespace
    else c :: rest

/-- `parse_activities_from_response`: strip per-line numbering and
bullets, split on commas / semicolons / newlines, trim and lowercase each
token, keep tokens longer than 2 characters. -/
def parse_activities_from_response (text : String) : List String :=
  let tokens :=
    (splitChars (fun c => c == '\n') text.toList).flatMap
      (fun line =>
        splitChars (fun c => c == ',' || c == ';')
          (stripBulletChars (stripNumberingChars line)))
  (((tokens.map (fun t => (trimChars t).map Char.toLower)).filter
      (fun t => 2 < t.length)).map String.mk)

/-- `filter_valid_activities`: keep tokens that contain one of the
`valid_keywords` as a substring, or equal one of the common single words. -/
def filter_valid_activities (activities : List String) : List String :=
  activities.filterMap (fun a0 =>
    let a := String.mk ((trimChars a0.toList).map Char.toLower)
    if valid_keywords.any (fun k => strContainsSub a k) then some a
    else if common_single_activities.contains a then some a
    else none)

/-- The four keyword catalogs of `get_fallback_multiple_activities`. -/
def outdoor_activities : List String :=
  ["park", "hiking trail", "outdoor sports", "garden", "beach"]

def indoor_relaxation : List String :=
  ["cafe", "spa", "library", "bookstore", "tea house"]

def cultural_activities : List String :=
  ["museum", "gallery", "theater", "historical site", "cultural center"]

def culinary_activities : List String :=
  ["restaurant", "food market", "bakery", "wine bar", "cooking school"]

/-- The concatenation `indoor_relaxation + cultural_activities +
culinary_activities` that the weather filter tests membership against. -/
def indoor_cultural_culinary : List String :=
  indoor_relaxation ++ cultural_activities ++ culinary_activities

/-- Preference flags arrive as a JSON object; modelled as an
insertion-ordered association list.  `activity_preferences.get(k)`
becomes a lookup defaulting to `false` (Python `None` is falsy). -/
def getFlag (prefs : List (String × Bool)) (k : String) : Bool :=
  (prefs.lookup k).getD false

/-- The preference-driven part of the fallback: concatenate the enabled
categories' lists in flag-declaration order.  With an absent or
all-false preferences object this is empty. -/
def preferenceActivities (prefs : List (String × Bool)) : List String :=
  (if getFlag prefs ("outdoorAdventure") then outdoor_activities else []) ++
  (if getFlag prefs ("indoorRelaxation") then indoor_relaxation else []) ++
  (if getFlag prefs ("culturalExploration") then cultural_activities else []) ++
  (if getFlag prefs ("culinaryDelights") then culinary_activities else [])

/-- The balanced catalog used when no preference contributed anything:
two keywords from each category, then every remaining catalog keyword
not already included. -/
def balancedCatalog : List String :=
  let seed := outdoor_activities.take 2 ++ indoor_relaxation.take 2 ++
    cultural_activities.take 2 ++ culinary_activities.take 2
  let all := outdoor_activities ++ indoor_relaxation ++
    cultural_activities ++ culinary_activities
  seed ++ all.filter (fun a => !(seed.contains a))

/-- `available_activities` as computed by the source: preference
categories if any contributed, else the balanced catalog. -/
def availableActivities (prefs : List (String × Bool)) : List String :=
  let fromPrefs := preferenceActivities prefs
  if fromPrefs.isEmpty then balancedCatalog else fromPrefs

/-- The weather-based re-filtering block of
`get_fallback_multiple_activities`, applied to `available`. -/
def weatherFilteredActivities (w : Weather) (maxA : Nat)
    (available : List String) : List String :=
  let weather_main := pyLower w.main
  if strContainsSub weather_main ("rain") || strContainsSub weather_main ("storm") then
    let wf := available.filter (fun a => indoor_cultural_culinary.contains a)
    if wf.length < maxA then wf ++ available.filter (fun a => !(wf.contains a))
    else wf
  else if (30 : ℚ) < w.temp then
    available.filter (fun a => indoor_cultural_culinary.contains a) ++
      available.filter (fun a =>
        outdoor_activities.contains a && strContainsSub a ("park"))
  else if (20 : ℚ) < w.temp then available
  else if w.temp < 5 then
    available.filter (fun a => indoor_cultural_culinary.contains a)
  else available

/-- The rain/storm test guarding the first branch of the weather filter
(`'rain' in weather_main or 'storm' in weather_main` on the lowercased
condition), named so the emptiness characterisation can refer to it. -/
def rainOrStormCondition (w : Weather) : Bool :=
  strContainsSub (pyLower w.main) ("rain") || strContainsSub (pyLower w.main) ("storm")

/-- The `seen`-set deduplication loop at the end of the fallback
(first occurrence wins, order preserved). -/
def dedupKeepFirstAux (seen : List String) : List String → List String
  | [] => []
  | a :: as =>
    if seen.contains a then dedupKeepFirstAux seen as
    else a :: dedupKeepFirstAux (a :: seen) as

def dedupKeepFirst (l : List String) : List String :=
  dedupKeepFirstAux [] l

/-- `get_fallback_multiple_activities`: preference-driven (or balanced)
catalog, weather-filtered, deduplicated, capped at `maxA`.

The source wraps the body in `try/except`; with the weather snapshot
modelled as a structure every field access is total, so the `except`
branch (a fixed default list) is unreachable in this embedding. -/
def get_fallback_multiple_activities (w : Weather) (maxA : Nat)
    (prefs : List (String × Bool)) : List String :=
  (dedupKeepFirst (weatherFilteredActivities w maxA (availableActivities prefs))).take maxA

/-- `get_multiple_activities_from_ai`.  `aiText = none` models the two
source paths that bypass the model: no OpenAI key configured, or the
ChatCompletion call raising; `aiText = some t` models a successful call
returning free text `t`. -/
def get_multiple_activities_from_ai (w : Weather) (maxA : Nat)
    (prefs : List (String × Bool)) (aiText : Option String) : List String :=
  match aiText with
  | none => get_fallback_multiple_activities w maxA prefs
  | some text =>
    let activities := parse_activities_from_response text
    let valid := filter_valid_activities activities
    if valid.length < 2 then get_fallback_multiple_activities w maxA prefs
    else valid.take maxA

/-! ## Place records and the place-search dedup (`get_nearby_places`) -/

/-- A formatted place as produced by the `place_data = {...}` block of
`get_nearby_places` (the shape stored in activity bundles). -/
structure PlaceRec where
  place_id : Option String
  name : Option String
  vicinity : Option String
  rating : Option ℚ
  user_ratings_total : Option Nat
  types : List String
  photos : List String
  price_level : Option Nat
  geometry_lat : Option ℚ
  geometry_lng : Option ℚ
  walking_time : Option String
  driving_time : Option String
  walking_distance : Option String
  driving_distance : Option String
deriving DecidableEq

/-- A raw Google Places result as collected across the two search
strategies, before deduplication.  Only `place_id` steers the dedup;
`payload` stands for the rest of the provider dict and serves to tell
two raw results with the same `place_id` apart. -/
structure RawPlace where
  pid : Option String
  payload : Nat
deriving DecidableEq

/-- The dedup loop of `get_nearby_places`: Python builds an
insertion-ordered dict `unique_places`, inserting a result only when its
`place_id` is truthy (non-empty) and not seen yet. -/
def dedupPlacesAux (seen : List String) : List RawPlace → List RawPlace
  | [] => []
  | p :: ps =>
    match p.pid with
    | some t =>
      if t != "" && !(seen.contains t) then p :: dedupPlacesAux (t :: seen) ps
      else dedupPlacesAux seen ps
    | none => dedupPlacesAux seen ps

/-- `list(unique_places.values())` — each retained result in collection
order, first occurrence per `place_id`. -/
def dedupPlaces (l : List RawPlace) : List RawPlace :=
  dedupPlacesAux [] l

/-! ## Travel-time estimator (`get_travel_times`) -/

/-- One element of a Distance Matrix row. -/
structure DMElement where
  status : String
  duration_text : String
  distance_text : String
deriving DecidableEq

structure DMRow where
  elements : List DMElement
deriving DecidableEq

structure DMResponse where
  rows : List DMRow
deriving DecidableEq

/-- The four nullable fields returned by `get_travel_times`. -/
structure TravelTimes where
  walking_time : Option String
  driving_time : Option String
  walking_distance : Option String
  driving_distance : Option String
deriving DecidableEq

/-- Outcome of a `get_travel_times` invocation as seen from the source's
control flow: the Google Maps credential may be absent, any step may
raise (caught by the blanket `except`), or both distance-matrix queries
return parsed responses. -/
inductive TravelOutcome where
  | noKey : TravelOutcome
  | exc : TravelOutcome
  | ok (walking driving : DMResponse) : TravelOutcome
deriving DecidableEq

/-- The all-null record the source returns on missing credential and on
any exception. -/
def allNullTravel : TravelTimes := ⟨none, none, none, none⟩

/-- The per-mode parse: `rows` truthy, `rows[0]['elements']` truthy, and
`elements[0]['status'] == 'OK'`; then extract duration and distance
text, else leave both null. -/
def parseModeFields (r : DMResponse) : Option String × Option String :=
  match r.rows with
  | [] => (none, none)
  | row :: _ =>
    match row.elements with
    | [] => (none, none)
    | e :: _ =>
      if e.status == "OK" then (some e.duration_text, some e.distance_text)
      else (none, none)

/-- `get_travel_times`. -/
def get_travel_times : TravelOutcome → TravelTimes
  | .noKey => allNullTravel
  | .exc => allNullTravel
  | .ok walking driving =>
    let w := parseModeFields walking
    let d := parseModeFields driving
    ⟨w.1, d.1, w.2, d.2⟩

/-- Does the first element of the first row of a response carry status
"OK"?  (The exact condition guarding field extraction.) -/
def firstElementOK (r : DMResponse) : Bool :=
  match r.rows with
  | [] => false
  | row :: _ =>
    match row.elements with
    | [] => false
    | e :: _ => e.status == "OK"

/-! ## Aggregation: `get_places_for_all_activities` -/

/-- One activity bundle as built by `fetch_places_for_activity` /
the outer error handler. -/
structure Bundle where
  activity_type : String
  activity_name : String
  places : List PlaceRec
  total_places_found : Nat
  error : Option String
deriving DecidableEq

/-- `format_activity_name`: replace underscores and dashes with spaces,
then title-case. -/
def format_activity_name (activity : String) : String :=
  pyTitle (String.mk (activity.toList.map
    (fun c => if c == '_' || c == '-' then ' ' else c)))

/-- Outcome of one per-keyword search task:
- `found places` — `get_nearby_places` returned a list (possibly mock);
- `innerExc` — the body of `fetch_places_for_activity` raised and its
  own `except` built a zero-place bundle with an error marker;
- `outerExc` — `future.result(timeout=10)` raised (timeout, or any
  exception escaping the worker), handled in the collection loop. -/
inductive SearchOutcome where
  | found (places : List PlaceRec) : SearchOutcome
  | innerExc (msg : String) : SearchOutcome
  | outerExc (msg : String) : SearchOutcome
deriving DecidableEq

/-- The bundle associated with one keyword's outcome.  `cap` is the
`max_places_per_activity` argument (the call site passes
`max_activities`). -/
def fetchResultBundle (kw : String) (cap : Nat) : SearchOutcome → Bundle
  | .found places =>
    ⟨kw, format_activity_name kw, places.take cap, places.length, none⟩
  | .innerExc m => ⟨kw, format_activity_name kw, [], 0, some m⟩
  | .outerExc m => ⟨kw, format_activity_name kw, [], 0, some m⟩

/-- The collection loop over `as_completed(...)`, in completion order:
a normally-returned bundle is kept only when its `places` list is
truthy; a bundle built in the collection loop's own `except` (timeout or
exception at `future.result`) is always kept. -/
def collectBundles (cap : Nat) : List (String × SearchOutcome) → List Bundle
  | [] => []
  | (kw, o) :: rest =>
    match o with
    | .outerExc m => fetchResultBundle kw cap (.outerExc m) :: collectBundles cap rest
    | _ =>
      let b := fetchResultBundle kw cap o
      if b.places.isEmpty then collectBundles cap rest
      else b :: collectBundles cap rest

/-- Stable insertion step for the descending sort on
`total_places_found`.  `x` passes over strictly greater totals and lands
before the first element whose total does not exceed its own, so equal
totals keep their original relative order. -/
def insertBundleDesc (x : Bundle) : List Bundle → List Bundle
  | [] => [x]
  | h :: t =>
    if x.total_places_found < h.total_places_found then h :: insertBundleDesc x t
    else x :: h :: t

/-- `activities_with_places.sort(key=..., reverse=True)`: Python's sort
is stable (documented), embedded as a stable insertion sort. -/
def sortBundlesDesc : List Bundle → List Bundle
  | [] => []
  | a :: l => insertBundleDesc a (sortBundlesDesc l)

/-- `get_places_for_all_activities`, parameterised by the list of
per-keyword outcomes **in completion order** (the nondeterministic
`as_completed` order). -/
def get_places_for_all_activities (completed : List (String × SearchOutcome))
    (cap : Nat) : List Bundle :=
  sortBundlesDesc (collectBundles cap completed)

/-! ## The request pipeline (`get_activity_suggestion`) -/

/-- JSON scalar values as they appear in the request payload.
String-typed coordinates are accepted by Python's `float()` when they
parse; that textual parse is outside every claim here, so `jfloat`
treats strings (and null) as the `float()`-raises path. -/
inductive JValue where
  | null : JValue
  | num (q : ℚ) : JValue
  | str (s : String) : JValue
  | bool (b : Bool) : JValue
deriving DecidableEq

/-- Python truthiness of a JSON scalar. -/
def truthy : JValue → Bool
  | .null => false
  | .num q => q != 0
  | .str s => s != ""
  | .bool b => b

/-- Truthiness of `data.get(...)` (absent key is falsy `None`). -/
def truthyOpt : Option JValue → Bool
  | none => false
  | some v => truthy v

/-- Python `float(...)` on a JSON scalar, as far as the claims need it:
numbers convert, booleans convert (`float(True) = 1.0`), null raises;
numeric strings would convert but no claim exercises them, so strings
are routed to the raising path. A `none` result lands in the handler's
blanket `except` (HTTP 500). -/
def jfloat : JValue → Option ℚ
  | .num q => some q
  | .bool b => some (if b then 1 else 0)
  | .null => none
  | .str _ => none

/-- Round `num/den` (with `den > 0`) half to even (Python's `round` tie
rule; ties at the 4th decimal are not exercised by any claim), phrased
on the numerator and denominator so that it evaluates by kernel
reduction. -/
def roundHalfEvenScaled (num den : ℤ) : ℤ :=
  let f := Int.fdiv num den
  let r := num - f * den
  if 2 * r < den then f
  else if den < 2 * r then f + 1
  else if f % 2 = 0 then f else f + 1

/-- Decimal digits of a 4-decimal fraction part with trailing zeros
removed (`fp < 10000`, `fp ≠ 0`). -/
def frac4Digits (fp : Nat) : String :=
  let s := toString fp
  let padded := String.mk (List.replicate (4 - s.length) '0') ++ s
  String.mk ((padded.toList.reverse.dropWhile (fun c => c == '0')).reverse)

/-- Render `n / 10^4` the way a Python f-string renders the float
`round(x, 4)` (shortest decimal form; integers get a trailing ".0"). -/
def showScaled4 (n : ℤ) : String :=
  let sign := if n < 0 then "-" else ""
  let m := n.natAbs
  let ip := m / 10000
  let fp := m % 10000
  sign ++ toString ip ++ "." ++ (if fp = 0 then "0" else frac4Digits fp)

/-- `round(float(x), 4)` rendered into the cache key
(`q * 10^4 = (q.num * 10^4) / q.den`). -/
def showRound4 (q : ℚ) : String :=
  showScaled4 (roundHalfEvenScaled (q.num * 10000) (q.den : ℤ))

/-- The `prefs_key` expression of the source:
`'_'.join([k for k, v in activity_preferences.items() if v]) if
activity_preferences else 'all'`.  Note that a nonempty dict whose
values are all false is truthy, so it takes the join branch and yields
the empty string. -/
def codePrefsKey (prefs : List (String × Bool)) : String :=
  if prefs.isEmpty then "all"
  else String.intercalate ("_") ((prefs.filter (fun p => p.2)).map (fun p => p.1))

/-- The full cache key built by `get_activity_suggestion`. -/
def requestCacheKey (latQ lngQ : ℚ) (maxA : Nat)
    (prefs : List (String × Bool)) : String :=
  "multi_activity_" ++ showRound4 latQ ++ "_" ++ showRound4 lngQ ++ "_" ++
    toString maxA ++ "_" ++ codePrefsKey prefs

/-- The location metadata block of the response. -/
structure LocationMeta where
  latitude : JValue
  longitude : JValue
  city : String
deriving DecidableEq

/-- The cached / returned aggregate result. -/
structure AggResult where
  activities : List Bundle
  weather : Weather
  location : LocationMeta
deriving DecidableEq

/-- HTTP-level outcome of the endpoint. -/
inductive Resp where
  | json (r : AggResult) : Resp
  | errR (status : Nat) (msg : String) : Resp
deriving DecidableEq

/-- Outbound provider contacts made while handling one request. -/
inductive Effect where
  | weatherCall : Effect
  | placesCall (kw : String) : Effect
deriving DecidableEq

/-- The parsed POST body.  `max_activities` defaults to 5 at parse time;
`activities` (the preference flags) defaults to the empty object. -/
structure Req where
  latitude : Option JValue
  longitude : Option JValue
  max_activities : Nat
  activity_preferences : List (String × Bool)

/-- `get_activity_suggestion` (the POST branch), with external outcomes
as parameters:
- `cache` — the Django result cache, as an association list (new writes
  are prepended, lookup takes the first match);
- `weatherFetch` — what `get_weather_data` returns (`none` = upstream
  non-200 or network exception);
- `aiText` — the OpenAI outcome fed to the keyword proposer;
- `searchOutcome` — the per-keyword place-search outcome (the fan-out
  submits one task per proposed keyword).
Returns the response, the updated cache, and the provider contacts. -/
def get_activity_suggestion (cache : List (String × AggResult)) (req : Req)
    (weatherFetch : Option Weather) (aiText : Option String)
    (searchOutcome : String → SearchOutcome) :
    Resp × List (String × AggResult) × List Effect :=
  match req.latitude, req.longitude with
  | some lat, some lng =>
    if !truthy lat || !truthy lng then
      (.errR 400 ("Missing coordinates"), cache, [])
    else
      match jfloat lat, jfloat lng with
      | some latQ, some lngQ =>
        let key := requestCacheKey latQ lngQ req.max_activities req.activity_preferences
        match cache.lookup key with
        | some cached => (.json cached, cache, [])
        | none =>
          match weatherFetch with
          | none => (.errR 500 ("Failed to get weather data"), cache, [.weatherCall])
          | some w =>
            let activities :=
              get_multiple_activities_from_ai w req.max_activities
                req.activity_preferences aiText
            let bundles :=
              get_places_for_all_activities
                (activities.map (fun a => (a, searchOutcome a))) req.max_activities
            let result : AggResult :=
              ⟨bundles, w, ⟨lat, lng, w.name.getD ("Unknown")⟩⟩
            (.json result, (key, result) :: cache,
              .weatherCall :: activities.map .placesCall)
      | _, _ =>
        -- float() raised; the handler's blanket except returns 500.
        (.errR 500 ("Failed to get activity suggestions"), cache, [])
  | _, _ => (.errR 400 ("Missing coordinates"), cache, [])

/-! ## Preference history (`update_user_preference`,
`delete_user_preference`) -/

/-- One stored preference record (`preference_data` in the source). -/
structure PrefEntry where
  place_id : String
  place_name : Option String
  activity_type : Option String
  preference : String
  timestamp : String
  user_id : String
deriving DecidableEq

/-- Python `l[-100:]`: the last `n` elements. -/
def lastN (n : Nat) (l : List α) : List α :=
  l.drop (l.length - n)

/-- The history update of `update_user_preference`: drop every entry for
the same place, append the new record, keep the last 100. -/
def update_user_preference_history (h : List PrefEntry) (p : PrefEntry) :
    List PrefEntry :=
  lastN 100 ((h.filter (fun q => q.place_id != p.place_id)) ++ [p])

/-- The history update of `delete_user_preference`: drop every entry for
the given place. -/
def delete_user_preference_history (h : List PrefEntry) (pid : String) :
    List PrefEntry :=
  h.filter (fun q => q.place_id != pid)

/-- The invariant claimed for stored histories: place ids pairwise
distinct and at most 100 entries. -/
def HistoryInv (h : List PrefEntry) : Prop :=
  (h.map (fun q => q.place_id)).Nodup ∧ h.length ≤ 100

/-! ## Spec-side definitions (for refinement comparison only) -/

/-- The canonical declared order of the preference flags. -/
def canonicalPrefNames : List String :=
  ["outdoorAdventure", "indoorRelaxation", "culturalExploration", "culinaryDelights"]

/-- Modelled from the spec's words: "the underscore-join of enabled
preference names in their canonical declared order, or the literal
'all' if none enabled". Compared against `codePrefsKey`. -/
def specPreferenceFingerprint (prefs : List (String × Bool)) : String :=
  let enabled := canonicalPrefNames.filter (fun n => getFlag prefs n)
  if enabled.isEmpty then "all" else String.intercalate ("_") enabled

/-- Exactly the outdoor flag enabled (the configuration on which the
cold-weather filter empties the fallback). -/
def onlyOutdoorEnabled (prefs : List (String × Bool)) : Prop :=
  getFlag prefs ("outdoorAdventure") = true ∧
  getFlag prefs ("indoorRelaxation") = false ∧
  getFlag prefs ("culturalExploration") = false ∧
  getFlag prefs ("culinaryDelights") = false

/-! ## Helper lemmas -/

/-- Members of the dedup loop's output were not in the starting `seen` set. -/
theorem mem_dedupKeepFirstAux {l : List String} {seen : List String} {a : String}
    (h : a ∈ dedupKeepFirstAux seen l) : a ∉ seen := by
  induction l generalizing seen with
  | nil => simp [dedupKeepFirstAux] at h
  | cons b bs ih =>
    by_cases hb : b ∈ seen
    · rw [dedupKeepFirstAux, if_pos (by simpa using hb)] at h
      exact ih h
    · rw [dedupKeepFirstAux, if_neg (by simpa using hb)] at h
      rcases List.mem_cons.mp h with rfl | h'
      · exact hb
      · have := ih h'
        exact fun hmem => this (List.mem_cons.mpr (Or.inr hmem))

/-- The dedup loop produces a duplicate-free list. -/
theorem dedupKeepFirstAux_nodup (l : List String) (seen : List String) :
    (dedupKeepFirstAux seen l).Nodup := by
  induction l generalizing seen with
  | nil => simp [dedupKeepFirstAux]
  | cons b bs ih =>
    by_cases hb : b ∈ seen
    · rw [dedupKeepFirstAux, if_pos (by simpa using hb)]
      exact ih seen
    · rw [dedupKeepFirstAux, if_neg (by simpa using hb)]
      refine List.nodup_cons.mpr ⟨fun hmem => ?_, ih (b :: seen)⟩
      exact (mem_dedupKeepFirstAux hmem) (List.mem_cons.mpr (Or.inl rfl))

theorem dedupKeepFirst_nodup (l : List String) : (dedupKeepFirst l).Nodup :=
  dedupKeepFirstAux_nodup l []

/-- Deduplicating a nonempty list yields a nonempty list. -/
theorem dedupKeepFirst_ne_nil {l : List String} (h : l ≠ []) :
    dedupKeepFirst l ≠ [] := by
  cases l with
  | nil => exact absurd rfl h
  | cons a as => simp [dedupKeepFirst, dedupKeepFirstAux]

/-- Taking at least one element of a nonempty list yields a nonempty list. -/
theorem take_ne_nil_of_ne_nil {l : List String} {n : Nat} (hn : 1 ≤ n)
    (h : l ≠ []) : l.take n ≠ [] := by
  cases l with
  | nil => exact absurd rfl h
  | cons a as =>
    cases n with
    | zero => omega
    | succ m => simp

/-- If some available keyword belongs to the indoor/cultural/culinary
catalog, every branch of the weather filter keeps at least one keyword. -/
theorem weatherFiltered_ne_nil (w : Weather) (maxA : Nat)
    {available : List String} {a : String} (ha : a ∈ available)
    (hi : indoor_cultural_culinary.contains a = true) :
    weatherFilteredActivities w maxA available ≠ [] := by
  have hmemf : a ∈ available.filter (fun x => indoor_cultural_culinary.contains x) :=
    List.mem_filter.mpr ⟨ha, hi⟩
  unfold weatherFilteredActivities
  dsimp only
  by_cases h1 : (strContainsSub (pyLower w.main) ("rain")
      || strContainsSub (pyLower w.main) ("storm")) = true
  · rw [if_pos h1]
    split
    · -- rain / storm branch with refill
      intro hc
      exact (List.ne_nil_of_mem hmemf) (List.append_eq_nil.mp hc).1
    · exact List.ne_nil_of_mem hmemf
  · rw [if_neg h1]
    by_cases h2 : (30 : ℚ) < w.temp
    · rw [if_pos h2]
      intro hc
      exact (List.ne_nil_of_mem hmemf) (List.append_eq_nil.mp hc).1
    · rw [if_neg h2]
      by_cases h3 : (20 : ℚ) < w.temp
      · rw [if_pos h3]
        exact List.ne_nil_of_mem ha
      · rw [if_neg h3]
        by_cases h4 : w.temp < 5
        · rw [if_pos h4]
          exact List.ne_nil_of_mem hmemf
        · rw [if_neg h4]
          exact List.ne_nil_of_mem ha

/-- In rain/storm weather the filter refills from the full available
list whenever the indoor pass keeps fewer than `maxA` keywords, so a
nonempty available list always survives (for `maxA ≥ 1`). -/
theorem weatherFiltered_rain_ne_nil (w : Weather) (maxA : Nat)
    (available : List String) (hrain : rainOrStormCondition w = true)
    (hmax : 1 ≤ maxA) (hav : available ≠ []) :
    weatherFilteredActivities w maxA available ≠ [] := by
  have hrain' : (strContainsSub (pyLower w.main) ("rain")
      || strContainsSub (pyLower w.main) ("storm")) = true := hrain
  unfold weatherFilteredActivities
  dsimp only
  rw [if_pos hrain']
  by_cases hlen : (available.filter
      (fun a => indoor_cultural_culinary.contains a)).length < maxA
  · rw [if_pos hlen]
    intro hc
    obtain ⟨h1, h2⟩ := List.append_eq_nil.mp hc
    rw [h1] at h2
    have hself : available.filter (fun a => !(List.contains [] a)) = available :=
      List.filter_eq_self.mpr (fun a _ => by simp)
    rw [hself] at h2
    exact hav h2
  · rw [if_neg hlen]
    intro hc
    rw [hc] at hlen
    simp only [List.length_nil, Nat.not_lt, Nat.le_zero] at hlen
    omega

/-- With only the outdoor catalog available, every non-rain branch of
the weather filter except the cold one keeps at least one keyword
("park" survives the very-hot filter; warm and mild keep everything). -/
theorem weatherFiltered_warm_outdoor_ne_nil (w : Weather) (maxA : Nat)
    (hrain : rainOrStormCondition w = false) (hcold : ¬ w.temp < 5) :
    weatherFilteredActivities w maxA outdoor_activities ≠ [] := by
  have hrain' : (strContainsSub (pyLower w.main) ("rain")
      || strContainsSub (pyLower w.main) ("storm")) = false := hrain
  have hrainn : ¬ ((strContainsSub (pyLower w.main) ("rain")
      || strContainsSub (pyLower w.main) ("storm")) = true) := by
    simp [hrain']
  unfold weatherFilteredActivities
  dsimp only
  rw [if_neg hrainn]
  by_cases h30 : (30 : ℚ) < w.temp
  · rw [if_pos h30]
    decide
  · rw [if_neg h30]
    by_cases h20 : (20 : ℚ) < w.temp
    · rw [if_pos h20]
      decide
    · rw [if_neg h20, if_neg hcold]
      decide

/-- With exactly the outdoor flag enabled, `available_activities` is the
outdoor catalog. -/
theorem availableActivities_onlyOutdoor {prefs : List (String × Bool)}
    (hoo : onlyOutdoorEnabled prefs) :
    availableActivities prefs = outdoor_activities := by
  unfold availableActivities preferenceActivities
  rw [hoo.1, hoo.2.1, hoo.2.2.1, hoo.2.2.2]
  decide

/-- Unless only the outdoor preference is enabled, the fallback is
non-empty for every weather snapshot (each other flag combination keeps
an indoor/cultural/culinary keyword through every weather branch). -/
theorem fallback_ne_nil_of_not_onlyOutdoor (w : Weather) (maxA : Nat)
    (prefs : List (String × Bool)) (hno : ¬ onlyOutdoorEnabled prefs)
    (hmax : 1 ≤ maxA) :
    get_fallback_multiple_activities w maxA prefs ≠ [] := by
  have hwitb : (availableActivities prefs).any
      (fun a => indoor_cultural_culinary.contains a) = true := by
    unfold availableActivities preferenceActivities
    cases ho : getFlag prefs ("outdoorAdventure") <;>
      cases hi : getFlag prefs ("indoorRelaxation") <;>
        cases hc : getFlag prefs ("culturalExploration") <;>
          cases hu : getFlag prefs ("culinaryDelights") <;>
      first
        | exact absurd (And.intro ho (And.intro hi (And.intro hc hu))) hno
        | decide
  obtain ⟨a, ha, hind⟩ := List.any_eq_true.mp hwitb
  have h1 := weatherFiltered_ne_nil w maxA ha hind
  have h2 := dedupKeepFirst_ne_nil h1
  simp only [get_fallback_multiple_activities]
  exact take_ne_nil_of_ne_nil hmax h2

/-- Every bundle in the collection loop's output is tagged with one of
the completed keywords. -/
theorem mem_collectBundles_type {cap : Nat}
    {completed : List (String × SearchOutcome)} {b : Bundle}
    (h : b ∈ collectBundles cap completed) :
    b.activity_type ∈ completed.map Prod.fst := by
  induction completed with
  | nil => simp [collectBundles] at h
  | cons p rest ih =>
    obtain ⟨kw, o⟩ := p
    cases o with
    | outerExc m =>
      simp only [collectBundles] at h
      rcases List.mem_cons.mp h with rfl | h'
      · simp [fetchResultBundle]
      · exact List.mem_cons.mpr (Or.inr (ih h'))
    | found places =>
      simp only [collectBundles] at h
      split at h
      · exact List.mem_cons.mpr (Or.inr (ih h))
      · rcases List.mem_cons.mp h with rfl | h'
        · simp [fetchResultBundle]
        · exact List.mem_cons.mpr (Or.inr (ih h'))
    | innerExc m =>
      simp only [collectBundles] at h
      split at h
      · exact List.mem_cons.mpr (Or.inr (ih h))
      · rcases List.mem_cons.mp h with rfl | h'
        · simp [fetchResultBundle]
        · exact List.mem_cons.mpr (Or.inr (ih h'))

/-- The bundle built for a keyword carries that keyword. -/
theorem fetchResultBundle_type (kw : String) (cap : Nat) (o : SearchOutcome) :
    (fetchResultBundle kw cap o).activity_type = kw := by
  cases o <;> rfl

/-- Inserting into the descending sort is a permutation of consing. -/
theorem insertBundleDesc_perm (x : Bundle) (l : List Bundle) :
    List.Perm (insertBundleDesc x l) (x :: l) := by
  induction l with
  | nil => rfl
  | cons h t ih =>
    by_cases hlt : x.total_places_found < h.total_places_found
    · simp only [insertBundleDesc, hlt, if_true]
      exact ((ih.cons h).trans (List.Perm.swap x h t))
    · simp [insertBundleDesc, hlt]

/-- The stable sort permutes its input. -/
theorem sortBundlesDesc_perm (l : List Bundle) :
    List.Perm (sortBundlesDesc l) l := by
  induction l with
  | nil => rfl
  | cons a t ih =>
    exact (insertBundleDesc_perm a (sortBundlesDesc t)).trans (ih.cons a)

/-- Insertion preserves the descending order on `total_places_found`. -/
theorem insertBundleDesc_pairwise {x : Bundle} {l : List Bundle}
    (h : List.Pairwise (fun a b => b.total_places_found ≤ a.total_places_found) l) :
    List.Pairwise (fun a b => b.total_places_found ≤ a.total_places_found)
      (insertBundleDesc x l) := by
  induction l with
  | nil => simp [insertBundleDesc]
  | cons hd t ih =>
    rcases List.pairwise_cons.mp h with ⟨hhd, ht⟩
    by_cases hlt : x.total_places_found < hd.total_places_found
    · simp only [insertBundleDesc, hlt, if_true]
      refine List.pairwise_cons.mpr ⟨fun y hy => ?_, ih ht⟩
      have : y ∈ x :: t := (insertBundleDesc_perm x t).mem_iff.mp hy
      rcases List.mem_cons.mp this with rfl | hyt
      · omega
      · exact hhd y hyt
    · simp only [insertBundleDesc, hlt, if_false]
      refine List.pairwise_cons.mpr ⟨fun y hy => ?_, h⟩
      rcases List.mem_cons.mp hy with rfl | hyt
      · omega
      · exact le_trans (hhd y hyt) (by omega)

/-- The sort output is descending in `total_places_found`. -/
theorem sortBundlesDesc_pairwise (l : List Bundle) :
    List.Pairwise (fun a b => b.total_places_found ≤ a.total_places_found)
      (sortBundlesDesc l) := by
  induction l with
  | nil => simp [sortBundlesDesc]
  | cons a t ih => exact insertBundleDesc_pairwise ih

/-- Filtering on one key value commutes with the insertion step: equal
keys keep their relative order (stability). -/
theorem insertBundleDesc_filter (x : Bundle) (l : List Bundle) (n : Nat) :
    (insertBundleDesc x l).filter (fun b => b.total_places_found == n) =
      (x :: l).filter (fun b => b.total_places_found == n) := by
  induction l with
  | nil => rfl
  | cons hd t ih =>
    by_cases hlt : x.total_places_found < hd.total_places_found
    · simp only [insertBundleDesc, hlt, if_true]
      by_cases hx : x.total_places_found = n
      · have hhd : (hd.total_places_found == n) = false := by
          simp only [beq_eq_false_iff_ne]
          omega
        simp only [List.filter_cons, hhd, ih]
        simp [List.filter_cons, hx, hhd]
      · have hx' : (x.total_places_found == n) = false := by
          simpa using hx
        by_cases hh : hd.total_places_found = n
        · simp only [List.filter_cons, ih]
          simp [hx', hh]
        · have hh' : (hd.total_places_found == n) = false := by simpa using hh
          simp only [List.filter_cons, hh', ih]
          simp [List.filter_cons, hx', hh']
    · simp [insertBundleDesc, hlt]

/-- Filtering on one key value commutes with the sort (stability). -/
theorem sortBundlesDesc_filter (l : List Bundle) (n : Nat) :
    (sortBundlesDesc l).filter (fun b => b.total_places_found == n) =
      l.filter (fun b => b.total_places_found == n) := by
  induction l with
  | nil => rfl
  | cons a t ih =>
    calc (sortBundlesDesc (a :: t)).filter (fun b => b.total_places_found == n)
        = (a :: sortBundlesDesc t).filter (fun b => b.total_places_found == n) :=
          insertBundleDesc_filter a (sortBundlesDesc t) n
      _ = (a :: t).filter (fun b => b.total_places_found == n) := by
          simp only [List.filter_cons, ih]

/-- The place dedup keeps results in collection order. -/
theorem dedupPlacesAux_sublist (l : List RawPlace) (seen : List String) :
    List.Sublist (dedupPlacesAux seen l) l := by
  induction l generalizing seen with
  | nil => simp [dedupPlacesAux]
  | cons p ps ih =>
    cases hp : p.pid with
    | none =>
      simp only [dedupPlacesAux, hp]
      exact (ih seen).cons p
    | some t =>
      simp only [dedupPlacesAux, hp]
      by_cases hg : (t != "" && !(seen.contains t)) = true
      · rw [if_pos hg]
        exact (ih (t :: seen)).cons₂ p
      · rw [if_neg hg]
        exact (ih seen).cons p

/-- Counting results with a given non-empty `place_id` in the dedup
output: zero if it is already `seen`, else one iff it occurs in the raw
collection. -/
theorem dedupPlacesAux_countP (l : List RawPlace) (seen : List String)
    (s : String) (hs : s ≠ "") :
    (dedupPlacesAux seen l).countP (fun p => p.pid == some s) =
      if s ∈ seen then 0
      else if l.any (fun p => p.pid == some s) then 1 else 0 := by
  induction l generalizing seen with
  | nil => simp [dedupPlacesAux]
  | cons p ps ih =>
    cases hp : p.pid with
    | none =>
      rw [show dedupPlacesAux seen (p :: ps) = dedupPlacesAux seen ps by
        simp only [dedupPlacesAux, hp], ih seen]
      simp [List.any_cons, hp]
    | some t =>
      by_cases hts : t = s
      · subst hts
        by_cases hseen : t ∈ seen
        · rw [show dedupPlacesAux seen (p :: ps) = dedupPlacesAux seen ps by
            simp only [dedupPlacesAux, hp]
            rw [if_neg (by simp [hseen])], ih seen]
          simp [hseen]
        · rw [show dedupPlacesAux seen (p :: ps) = p :: dedupPlacesAux (t :: seen) ps by
            simp only [dedupPlacesAux, hp]
            rw [if_pos (by simp [hseen, hs])]]
          rw [List.countP_cons, ih (t :: seen)]
          simp [hseen, List.any_cons, hp]
      · have hpred : (p.pid == some s) = false := by
          simp [hp, hts]
        by_cases hg : (t != "" && !(seen.contains t)) = true
        · rw [show dedupPlacesAux seen (p :: ps) = p :: dedupPlacesAux (t :: seen) ps by
            simp only [dedupPlacesAux, hp]
            rw [if_pos hg]]
          have hmem : (s ∈ t :: seen) ↔ (s ∈ seen) := by
            simp only [List.mem_cons]
            constructor
            · rintro (rfl | h')
              · exact absurd rfl hts
              · exact h'
            · exact Or.inr
          rw [List.countP_cons, hpred, ih (t :: seen)]
          simp only [hmem]
          simp [List.any_cons, hpred]
        · rw [show dedupPlacesAux seen (p :: ps) = dedupPlacesAux seen ps by
            simp only [dedupPlacesAux, hp]
            rw [if_neg hg], ih seen]
          simp [List.any_cons, hpred]

/-- If a non-empty `place_id` is not yet `seen`, the first retained
result for it is the first raw result carrying it. -/
theorem dedupPlacesAux_find (l : List RawPlace) (seen : List String)
    (s : String) (hs : s ≠ "") (hseen : s ∉ seen) :
    (dedupPlacesAux seen l).find? (fun p => p.pid == some s) =
      l.find? (fun p => p.pid == some s) := by
  induction l generalizing seen with
  | nil => simp [dedupPlacesAux]
  | cons p ps ih =>
    cases hp : p.pid with
    | none =>
      have hpred : (p.pid == some s) = false := by simp [hp]
      rw [show dedupPlacesAux seen (p :: ps) = dedupPlacesAux seen ps by
        simp only [dedupPlacesAux, hp]]
      rw [ih seen hseen]
      conv_rhs => rw [List.find?]
      simp only [hpred]
    | some t =>
      by_cases hts : t = s
      · subst hts
        have hpred : (p.pid == some t) = true := by simp [hp]
        rw [show dedupPlacesAux seen (p :: ps) = p :: dedupPlacesAux (t :: seen) ps by
          simp only [dedupPlacesAux, hp]
          rw [if_pos (by simp [hs, hseen])]]
        simp only [List.find?, hpred]
      · have hpred : (p.pid == some s) = false := by
          simp [hp, hts]
        by_cases hg : (t != "" && !(seen.contains t)) = true
        · rw [show dedupPlacesAux seen (p :: ps) = p :: dedupPlacesAux (t :: seen) ps by
            simp only [dedupPlacesAux, hp]
            rw [if_pos hg]]
          simp only [List.find?, hpred]
          exact ih (t :: seen) (by
            intro hc
            rcases List.mem_cons.mp hc with rfl | hc'
            · exact hts rfl
            · exact hseen hc')
        · rw [show dedupPlacesAux seen (p :: ps) = dedupPlacesAux seen ps by
            simp only [dedupPlacesAux, hp]
            rw [if_neg hg]]
          rw [ih seen hseen]
          conv_rhs => rw [List.find?]
          simp only [hpred]

/-- The per-mode parse yields `some` exactly when the first element of
the first row has status "OK" (for both the duration and the distance
slot). -/
theorem parseModeFields_isSome (r : DMResponse) :
    (parseModeFields r).1.isSome = firstElementOK r ∧
    (parseModeFields r).2.isSome = firstElementOK r := by
  obtain ⟨rows⟩ := r
  cases rows with
  | nil => exact ⟨rfl, rfl⟩
  | cons row rest =>
    obtain ⟨elems⟩ := row
    cases elems with
    | nil => exact ⟨rfl, rfl⟩
    | cons e rest' =>
      simp only [parseModeFields, firstElementOK]
      split <;> simp_all

/-- Membership in the collection loop's output, for a keyword list
without duplicates: a keyword's bundle is collected iff its `places`
list is non-empty or its outcome is an error at the result wait. -/
theorem mem_collectBundles_iff (cap : Nat) (kw : String) (o : SearchOutcome) :
    ∀ completed : List (String × SearchOutcome),
      (completed.map Prod.fst).Nodup → (kw, o) ∈ completed →
      (fetchResultBundle kw cap o ∈ collectBundles cap completed ↔
        ((fetchResultBundle kw cap o).places ≠ [] ∨ ∃ m, o = .outerExc m)) := by
  intro completed
  induction completed with
  | nil =>
    intro _ hmem
    simp at hmem
  | cons hd rest ih =>
    intro hnd hmem
    obtain ⟨kw', o'⟩ := hd
    rw [List.map_cons, List.nodup_cons] at hnd
    obtain ⟨hkw', hndrest⟩ := hnd
    rcases List.mem_cons.mp hmem with heq | hmemrest
    · injection heq with h1 h2
      subst h1
      subst h2
      cases o with
      | outerExc m =>
        simp only [collectBundles]
        exact iff_of_true (List.mem_cons_self _ _) (Or.inr ⟨m, rfl⟩)
      | found places =>
        simp only [collectBundles]
        by_cases hp : (fetchResultBundle kw cap (.found places)).places.isEmpty
        · rw [if_pos hp]
          refine iff_of_false (fun hmem' => ?_) ?_
          · have := mem_collectBundles_type hmem'
            rw [fetchResultBundle_type] at this
            exact hkw' this
          · rintro (hne | ⟨m, hmo⟩)
            · exact hne (List.isEmpty_iff.mp hp)
            · exact SearchOutcome.noConfusion hmo
        · rw [if_neg hp]
          refine iff_of_true (List.mem_cons_self _ _) (Or.inl ?_)
          simpa [List.isEmpty_iff] using hp
      | innerExc m =>
        simp only [collectBundles]
        rw [if_pos (show (fetchResultBundle kw cap
          (SearchOutcome.innerExc m)).places.isEmpty = true from rfl)]
        refine iff_of_false (fun hmem' => ?_) ?_
        · have := mem_collectBundles_type hmem'
          rw [fetchResultBundle_type] at this
          exact hkw' this
        · rintro (hne | ⟨m', hmo⟩)
          · exact hne rfl
          · exact SearchOutcome.noConfusion hmo
    · have hkwtail : kw ∈ rest.map Prod.fst :=
        List.mem_map.mpr ⟨(kw, o), hmemrest, rfl⟩
      have hne : kw' ≠ kw := fun h => hkw' (h ▸ hkwtail)
      have hbne : ∀ o'' : SearchOutcome,
          fetchResultBundle kw cap o ≠ fetchResultBundle kw' cap o'' := by
        intro o'' hEq
        have := congrArg Bundle.activity_type hEq
        rw [fetchResultBundle_type, fetchResultBundle_type] at this
        exact hne this.symm
      have hih := ih hndrest hmemrest
      cases o' with
      | outerExc m =>
        simp only [collectBundles]
        constructor
        · intro hmem'
          rcases List.mem_cons.mp hmem' with hEq | h'
          · exact absurd hEq (hbne _)
          · exact hih.mp h'
        · intro hr
          exact List.mem_cons.mpr (Or.inr (hih.mpr hr))
      | found places =>
        simp only [collectBundles]
        by_cases hp : (fetchResultBundle kw' cap (.found places)).places.isEmpty
        · rw [if_pos hp]
          exact hih
        · rw [if_neg hp]
          constructor
          · intro hmem'
            rcases List.mem_cons.mp hmem' with hEq | h'
            · exact absurd hEq (hbne _)
            · exact hih.mp h'
          · intro hr
            exact List.mem_cons.mpr (Or.inr (hih.mpr hr))
      | innerExc m =>
        simp only [collectBundles]
        rw [if_pos (show (fetchResultBundle kw' cap
          (SearchOutcome.innerExc m)).places.isEmpty = true from rfl)]
        exact hih

/-! ## Claim theorems -/

/-- C5: For weather condition "Rain" at 15°C with no preference flags and
the default `max_count` of 5, the fallback proposal contains no
outdoor-only catalog keyword (in particular not "hiking trail") and
contains at least one keyword from the indoor-relaxation, cultural or
culinary catalog lists. -/
theorem rain_fallback_excludes_outdoor :
    ((get_fallback_multiple_activities
        ⟨"Rain", "light rain", 15, some 70, some ("City")⟩ 5 []).all
      (fun a => !(outdoor_activities.contains a)) = true) ∧
    ((get_fallback_multiple_activities
        ⟨"Rain", "light rain", 15, some 70, some ("City")⟩ 5 []).contains
      ("hiking trail") = false) ∧
    ((get_fallback_multiple_activities
        ⟨"Rain", "light rain", 15, some 70, some ("City")⟩ 5 []).any
      (fun a => indoor_cultural_culinary.contains a) = true) := by
  refine ⟨?_, ?_, ?_⟩ <;> rfl

/-- C7: The activities sequence returned by the merge/rank step is
sorted by `total_places_found` in descending order, and bundles with
equal `total_places_found` keep their relative arrival (completion)
order — the sort is stable, ties are not re-sorted by name. -/
theorem bundles_sorted_descending_stable
    (completed : List (String × SearchOutcome)) (cap : Nat) (n : Nat) :
    List.Pairwise (fun a b => b.total_places_found ≤ a.total_places_found)
      (get_places_for_all_activities completed cap) ∧
    (get_places_for_all_activities completed cap).filter
        (fun b => b.total_places_found == n) =
      (collectBundles cap completed).filter
        (fun b => b.total_places_found == n) :=
  ⟨sortBundlesDesc_pairwise (collectBundles cap completed),
   sortBundlesDesc_filter (collectBundles cap completed) n⟩

/-- C8: `get_travel_times` returns all four fields null when the places
credential is absent or any exception occurs, and on a successful pair
of responses each mode's duration/distance text is filled exactly when
the first row's first element of that mode's response has status "OK". -/
theorem travel_times_null_semantics :
    (get_travel_times .noKey = allNullTravel ∧
     get_travel_times .exc = allNullTravel) ∧
    (∀ w d : DMResponse,
      ((get_travel_times (.ok w d)).walking_time.isSome = firstElementOK w) ∧
      ((get_travel_times (.ok w d)).walking_distance.isSome = firstElementOK w) ∧
      ((get_travel_times (.ok w d)).driving_time.isSome = firstElementOK d) ∧
      ((get_travel_times (.ok w d)).driving_distance.isSome = firstElementOK d)) := by
  refine ⟨⟨rfl, rfl⟩, fun w d => ?_⟩
  obtain ⟨hw1, hw2⟩ := parseModeFields_isSome w
  obtain ⟨hd1, hd2⟩ := parseModeFields_isSome d
  simp only [get_travel_times]
  exact ⟨hw1, hw2, hd1, hd2⟩

/-- C9: A request whose latitude or longitude is the JSON number 0 is
rejected with the 400 "Missing coordinates" error, the cache is left
unchanged, and no provider is contacted — the presence check is by
truthiness, and `0` is falsy. -/
theorem zero_coordinate_rejected (cache : List (String × AggResult)) (req : Req)
    (wf : Option Weather) (ai : Option String) (so : String → SearchOutcome) :
    (req.latitude = some (.num 0) →
      get_activity_suggestion cache req wf ai so =
        (.errR 400 ("Missing coordinates"), cache, [])) ∧
    (req.longitude = some (.num 0) →
      get_activity_suggestion cache req wf ai so =
        (.errR 400 ("Missing coordinates"), cache, [])) := by
  constructor
  · intro hlat
    unfold get_activity_suggestion
    rw [hlat]
    cases hlng : req.longitude with
    | none => rfl
    | some lng => simp [truthy]
  · intro hlng
    unfold get_activity_suggestion
    rw [hlng]
    cases hlat : req.latitude with
    | none => rfl
    | some lat => simp [truthy]

/-- C9 witness: a concrete request with latitude 0 is rejected without
any provider contact. -/
theorem zero_coordinate_rejected_witness :
    (Req.latitude ⟨some (.num 0), some (.num 1), 5, []⟩ = some (.num 0)) ∧
    get_activity_suggestion [] ⟨some (.num 0), some (.num 1), 5, []⟩
        (some ⟨"Clear", "clear sky", 20, some 50, some ("Town")⟩) none
        (fun _ => .found []) =
      (.errR 400 ("Missing coordinates"), [], []) :=
  ⟨rfl, (zero_coordinate_rejected [] ⟨some (.num 0), some (.num 1), 5, []⟩
      (some ⟨"Clear", "clear sky", 20, some 50, some ("Town")⟩) none
      (fun _ => .found [])).1 rfl⟩

/-- C10: A successful `update_user_preference` leaves the stored history
with at most one entry per `place_id` (the appended record is the only
one for its place) and at most 100 entries; `delete_user_preference`
preserves the invariant and removes every entry with the given
`place_id`. -/
theorem preference_history_invariant (h : List PrefEntry) (p : PrefEntry)
    (pid : String) (hInv : HistoryInv h) :
    HistoryInv (update_user_preference_history h p) ∧
    HistoryInv (delete_user_preference_history h pid) ∧
    (∀ q ∈ delete_user_preference_history h pid, q.place_id ≠ pid) ∧
    (∀ q ∈ update_user_preference_history h p,
      q.place_id = p.place_id → q = p) := by
  obtain ⟨hnd, hlen⟩ := hInv
  have hfilter_sub : List.Sublist (h.filter (fun q => q.place_id != p.place_id)) h :=
    List.filter_sublist h
  have hfilter_mem : ∀ q ∈ h.filter (fun q => q.place_id != p.place_id),
      q.place_id ≠ p.place_id := by
    intro q hq
    have := (List.mem_filter.mp hq).2
    simpa using this
  have happ_nodup :
      (((h.filter (fun q => q.place_id != p.place_id)) ++ [p]).map
        (fun q => q.place_id)).Nodup := by
    rw [List.map_append]
    refine List.nodup_append.mpr ⟨?_, by simp, ?_⟩
    · exact List.Nodup.sublist (hfilter_sub.map (fun q => q.place_id)) hnd
    · intro x hx
      simp only [List.mem_map] at hx
      obtain ⟨q, hq, rfl⟩ := hx
      simp only [List.map_cons, List.map_nil, List.mem_singleton]
      exact hfilter_mem q hq
  have hlast_sub :
      List.Sublist
        (update_user_preference_history h p)
        ((h.filter (fun q => q.place_id != p.place_id)) ++ [p]) :=
    List.drop_sublist _ _
  refine ⟨⟨?_, ?_⟩, ⟨?_, ?_⟩, ?_, ?_⟩
  · exact List.Nodup.sublist (hlast_sub.map (fun q => q.place_id)) happ_nodup
  · -- `l[-100:]` keeps at most 100 entries
    unfold update_user_preference_history lastN
    rw [List.length_drop]
    omega
  · exact List.Nodup.sublist ((List.filter_sublist h).map (fun q => q.place_id)) hnd
  · exact le_trans (List.length_filter_le _ h) hlen
  · intro q hq
    have := (List.mem_filter.mp hq).2
    simpa using this
  · intro q hq hqid
    have hq' : q ∈ (h.filter (fun q => q.place_id != p.place_id)) ++ [p] :=
      hlast_sub.mem hq
    rcases List.mem_append.mp hq' with hmem | hmem
    · exact absurd hqid (hfilter_mem q hmem)
    · simpa using hmem

/-- C10 witness: starting from an empty history, one update and one
delete at concrete records. -/
theorem preference_history_invariant_witness :
    HistoryInv [] ∧
    HistoryInv (update_user_preference_history []
      ⟨"p1", some ("Gourmet Bistro"), some ("restaurant"), "like", "t0", "u1"⟩) :=
  ⟨⟨by simp, by simp⟩,
   (preference_history_invariant []
      ⟨"p1", some ("Gourmet Bistro"), some ("restaurant"), "like", "t0", "u1"⟩
      ("p1") ⟨by simp, by simp⟩).1⟩

/-- C6: The dedup step of `get_nearby_places` is order-preserving
(a sublist of the raw collection), keeps each non-empty `place_id`
exactly once iff it occurs at all, and keeps precisely the first raw
result carrying that `place_id`. -/
theorem place_dedup_first_occurrence (raw : List RawPlace) (s : String)
    (hs : s ≠ "") :
    List.Sublist (dedupPlaces raw) raw ∧
    ((dedupPlaces raw).countP (fun p => p.pid == some s) =
      if raw.any (fun p => p.pid == some s) then 1 else 0) ∧
    ((dedupPlaces raw).find? (fun p => p.pid == some s) =
      raw.find? (fun p => p.pid == some s)) := by
  refine ⟨dedupPlacesAux_sublist raw [], ?_, ?_⟩
  · have := dedupPlacesAux_countP raw [] s hs
    simpa [dedupPlaces] using this
  · exact dedupPlacesAux_find raw [] s hs (by simp)

/-- C6 witness: a raw collection with a duplicated `place_id` across the
two strategies. -/
theorem place_dedup_first_occurrence_witness :
    ("a" ≠ "") ∧
    (List.Sublist (dedupPlaces [⟨some ("a"), 1⟩, ⟨some ("b"), 2⟩, ⟨some ("a"), 3⟩])
        [⟨some ("a"), 1⟩, ⟨some ("b"), 2⟩, ⟨some ("a"), 3⟩] ∧
      ((dedupPlaces [⟨some ("a"), 1⟩, ⟨some ("b"), 2⟩, ⟨some ("a"), 3⟩]).countP
          (fun p => p.pid == some ("a")) =
        if ([⟨some ("a"), 1⟩, ⟨some ("b"), 2⟩, ⟨some ("a"), 3⟩] :
            List RawPlace).any (fun p => p.pid == some ("a")) then 1 else 0) ∧
      ((dedupPlaces [⟨some ("a"), 1⟩, ⟨some ("b"), 2⟩, ⟨some ("a"), 3⟩]).find?
          (fun p => p.pid == some ("a")) =
        ([⟨some ("a"), 1⟩, ⟨some ("b"), 2⟩, ⟨some ("a"), 3⟩] :
            List RawPlace).find? (fun p => p.pid == some ("a")))) :=
  ⟨by decide,
   place_dedup_first_occurrence [⟨some ("a"), 1⟩, ⟨some ("b"), 2⟩, ⟨some ("a"), 3⟩]
     ("a") (by decide)⟩

/-- C4: On a cache miss, a failed weather fetch makes the request fail
with the 500 response and leaves the cache untouched (nothing is written
under the request's key), while with any successful weather fetch the
request returns a JSON result no matter how every per-keyword place
search turns out. -/
theorem weather_failure_fatal (cache : List (String × AggResult)) (req : Req)
    (latv lngv : JValue) (latQ lngQ : ℚ) (ai : Option String)
    (so : String → SearchOutcome)
    (hlat : req.latitude = some latv) (hlng : req.longitude = some lngv)
    (htl : truthy latv = true) (htg : truthy lngv = true)
    (hfl : jfloat latv = some latQ) (hfg : jfloat lngv = some lngQ)
    (hmiss : cache.lookup
      (requestCacheKey latQ lngQ req.max_activities req.activity_preferences) = none) :
    ((get_activity_suggestion cache req none ai so).1 =
        .errR 500 ("Failed to get weather data") ∧
      (get_activity_suggestion cache req none ai so).2.1 = cache) ∧
    (∀ w : Weather, ∃ r,
      (get_activity_suggestion cache req (some w) ai so).1 = .json r) := by
  have hred : ∀ wf : Option Weather,
      get_activity_suggestion cache req wf ai so =
        (match wf with
         | none => (.errR 500 ("Failed to get weather data"), cache, [.weatherCall])
         | some w =>
           let activities :=
             get_multiple_activities_from_ai w req.max_activities
               req.activity_preferences ai
           let bundles :=
             get_places_for_all_activities
               (activities.map (fun a => (a, so a))) req.max_activities
           let result : AggResult :=
             ⟨bundles, w, ⟨latv, lngv, w.name.getD ("Unknown")⟩⟩
           (.json result,
             (requestCacheKey latQ lngQ req.max_activities req.activity_preferences,
               result) :: cache,
             .weatherCall :: activities.map .placesCall)) := by
    intro wf
    unfold get_activity_suggestion
    rw [hlat, hlng]
    simp only [htl, htg, Bool.not_true, Bool.or_self, Bool.false_eq_true, if_false,
      hfl, hfg, hmiss]
  refine ⟨?_, fun w => ?_⟩
  · rw [hred none]
    exact ⟨rfl, rfl⟩
  · rw [hred (some w)]
    exact ⟨_, rfl⟩

/-- C4 witness: concrete request, empty cache, failed weather fetch. -/
theorem weather_failure_fatal_witness :
    (Req.latitude ⟨some (.num 1), some (.num 2), 5, []⟩ = some (.num 1)) ∧
    (truthy (.num 1) = true) ∧
    (([] : List (String × AggResult)).lookup (requestCacheKey 1 2 5 []) = none) ∧
    ((get_activity_suggestion [] ⟨some (.num 1), some (.num 2), 5, []⟩ none none
        (fun _ => .outerExc ("timeout"))).1 =
      .errR 500 ("Failed to get weather data") ∧
     (get_activity_suggestion [] ⟨some (.num 1), some (.num 2), 5, []⟩ none none
        (fun _ => .outerExc ("timeout"))).2.1 = []) :=
  ⟨rfl, by decide, rfl,
   (weather_failure_fatal [] ⟨some (.num 1), some (.num 2), 5, []⟩
      (.num 1) (.num 2) 1 2 none (fun _ => .outerExc ("timeout"))
      rfl rfl (by decide) (by decide) rfl rfl rfl).1⟩

/-- C3 counterexample: a supplied preferences object with every flag
false is truthy in Python, so the fingerprint is the empty join, not
"all".  At latitude 3.5, longitude 2.25, `max_activities` 5 and
preferences `{"outdoorAdventure": false}`, the key actually written to
the cache is `multi_activity_3.5_2.25_5_` (trailing empty fingerprint),
not the claimed `multi_activity_3.5_2.25_5_all`. -/
theorem cache_key_counterexample :
    ((get_activity_suggestion [] ⟨some (.num (mkRat 7 2)), some (.num (mkRat 9 4)), 5,
        [("outdoorAdventure", false)]⟩
        (some ⟨"Clear", "clear sky", 20, some 50, some ("Town")⟩) none
        (fun _ => .found [])).2.1.map Prod.fst = ["multi_activity_3.5_2.25_5_"]) ∧
    ("multi_activity_3.5_2.25_5_" : String) ≠ "multi_activity_3.5_2.25_5_all" :=
  ⟨by decide, by decide⟩

/-- C3 (amended): the cache key is
`"multi_activity_" + round(lat,4) + "_" + round(lng,4) + "_" +
max_activities + "_" + fingerprint`, where the fingerprint joins the
enabled preference names **in the order they appear in the supplied
preferences object**; it is the literal "all" exactly when the
preferences object is absent or empty, and a nonempty all-false object
yields the empty fingerprint.  When the supplied object lists the flags
in their canonical declared order and at least one flag is enabled, the
code fingerprint agrees with the spec's canonical-order fingerprint. -/
theorem cache_key_amended :
    (∀ (cache : List (String × AggResult)) (req : Req) (latv lngv : JValue)
        (latQ lngQ : ℚ) (w : Weather) (ai : Option String)
        (so : String → SearchOutcome),
      req.latitude = some latv → req.longitude = some lngv →
      truthy latv = true → truthy lngv = true →
      jfloat latv = some latQ → jfloat lngv = some lngQ →
      cache.lookup (requestCacheKey latQ lngQ req.max_activities
        req.activity_preferences) = none →
      ∃ r, (get_activity_suggestion cache req (some w) ai so).2.1 =
        (requestCacheKey latQ lngQ req.max_activities req.activity_preferences,
          r) :: cache) ∧
    (codePrefsKey [] = "all") ∧
    (∀ prefs : List (String × Bool), prefs ≠ [] → (∀ p ∈ prefs, p.2 = false) →
      codePrefsKey prefs = "") ∧
    (∀ b1 b2 b3 b4 : Bool, (b1 || b2 || b3 || b4) = true →
      codePrefsKey [("outdoorAdventure", b1), ("indoorRelaxation", b2),
          ("culturalExploration", b3), ("culinaryDelights", b4)] =
        specPreferenceFingerprint [("outdoorAdventure", b1), ("indoorRelaxation", b2),
          ("culturalExploration", b3), ("culinaryDelights", b4)]) := by
  refine ⟨?_, rfl, ?_, by decide⟩
  · intro cache req latv lngv latQ lngQ w ai so hlat hlng htl htg hfl hfg hmiss
    unfold get_activity_suggestion
    rw [hlat, hlng]
    simp only [htl, htg, Bool.not_true, Bool.or_self, Bool.false_eq_true, if_false,
      hfl, hfg, hmiss]
    exact ⟨_, rfl⟩
  · intro prefs hne hall
    unfold codePrefsKey
    rw [if_neg (by simp [List.isEmpty_iff, hne])]
    have hfil : prefs.filter (fun p => p.2) = [] := by
      rw [List.filter_eq_nil_iff]
      intro p hp
      simp [hall p hp]
    rw [hfil]
    rfl

/-- C3 witness: the first conjunct of the amended claim instantiated at
a concrete request with no preferences object. -/
theorem cache_key_amended_witness :
    (([] : List (String × AggResult)).lookup (requestCacheKey (mkRat 7 2) (mkRat 9 4) 5 []) =
      none) ∧
    ∃ r, (get_activity_suggestion [] ⟨some (.num (mkRat 7 2)), some (.num (mkRat 9 4)), 5, []⟩
        (some ⟨"Clear", "clear sky", 20, some 50, some ("Town")⟩) none
        (fun _ => .found [])).2.1 = (requestCacheKey (mkRat 7 2) (mkRat 9 4) 5 [], r) :: [] :=
  ⟨rfl,
   cache_key_amended.1 [] ⟨some (.num (mkRat 7 2)), some (.num (mkRat 9 4)), 5, []⟩
     (.num (mkRat 7 2)) (.num (mkRat 9 4)) (mkRat 7 2) (mkRat 9 4)
     ⟨"Clear", "clear sky", 20, some 50, some ("Town")⟩ none
     (fun _ => .found []) rfl rfl (by decide) (by decide) rfl rfl rfl⟩

/-- C1 counterexample: the proposal is not always non-empty and not
always duplicate-free.  With only the outdoorAdventure preference
enabled, clear weather at 0°C sends the fallback through the
cold-weather filter, which drops every outdoor keyword and leaves the
proposal empty; and on the AI path a response repeating a token is
passed through without deduplication. -/
theorem proposer_counterexample :
    (get_multiple_activities_from_ai ⟨"Clear", "clear sky", 0, some 50, some ("X")⟩
        5 [("outdoorAdventure", true)] none = []) ∧
    (get_multiple_activities_from_ai ⟨"Clear", "clear sky", 15, some 50, some ("X")⟩
        5 [] (some ("restaurant, restaurant")) = ["restaurant", "restaurant"]) :=
  ⟨by decide, by decide⟩

/-- C1 (amended): for every weather snapshot, `max_count`, preference
assignment and AI outcome, the proposer returns a sequence of length at
most `max_count` without raising; whenever the deterministic fallback
fires its result is additionally duplicate-free, and (for
`max_count ≥ 1`) it is empty exactly when only the outdoorAdventure
preference is enabled, the condition is not rain/storm, and the
temperature is below 5°C — otherwise it is non-empty.  The AI path does
not deduplicate repeated tokens. -/
theorem proposer_length_nodup_nonempty (w : Weather) (maxA : Nat)
    (prefs : List (String × Bool)) (aiText : Option String) :
    (get_multiple_activities_from_ai w maxA prefs aiText).length ≤ maxA ∧
    (get_fallback_multiple_activities w maxA prefs).Nodup ∧
    (1 ≤ maxA →
      (get_fallback_multiple_activities w maxA prefs = [] ↔
        (onlyOutdoorEnabled prefs ∧ rainOrStormCondition w = false ∧
          w.temp < 5))) := by
  refine ⟨?_, ?_, ?_⟩
  · cases aiText with
    | none =>
      simp only [get_multiple_activities_from_ai, get_fallback_multiple_activities]
      exact List.length_take_le _ _
    | some text =>
      simp only [get_multiple_activities_from_ai]
      split
      · simp only [get_fallback_multiple_activities]
        exact List.length_take_le _ _
      · exact List.length_take_le _ _
  · exact List.Nodup.sublist (List.take_sublist _ _) (dedupKeepFirst_nodup _)
  · intro hmax
    constructor
    · intro hemp
      by_cases hoo : onlyOutdoorEnabled prefs
      · have hav := availableActivities_onlyOutdoor hoo
        cases hrain : rainOrStormCondition w with
        | true =>
          exfalso
          have hne := weatherFiltered_rain_ne_nil w maxA outdoor_activities
            hrain hmax (by decide)
          have hne2 := take_ne_nil_of_ne_nil hmax (dedupKeepFirst_ne_nil hne)
          apply hne2
          unfold get_fallback_multiple_activities at hemp
          rw [hav] at hemp
          exact hemp
        | false =>
          by_cases hcold : w.temp < 5
          · exact ⟨hoo, rfl, hcold⟩
          · exfalso
            have hne := weatherFiltered_warm_outdoor_ne_nil w maxA hrain hcold
            have hne2 := take_ne_nil_of_ne_nil hmax (dedupKeepFirst_ne_nil hne)
            apply hne2
            unfold get_fallback_multiple_activities at hemp
            rw [hav] at hemp
            exact hemp
      · exact absurd hemp
          (fallback_ne_nil_of_not_onlyOutdoor w maxA prefs hoo hmax)
    · rintro ⟨hoo, hrain, hcold⟩
      have hav := availableActivities_onlyOutdoor hoo
      have hrain' : (strContainsSub (pyLower w.main) ("rain")
          || strContainsSub (pyLower w.main) ("storm")) = false := hrain
      have hrainn : ¬ ((strContainsSub (pyLower w.main) ("rain")
          || strContainsSub (pyLower w.main) ("storm")) = true) := by
        simp [hrain']
      have h30 : ¬ (30 : ℚ) < w.temp := by
        intro h
        linarith
      have h20 : ¬ (20 : ℚ) < w.temp := by
        intro h
        linarith
      unfold get_fallback_multiple_activities
      rw [hav]
      unfold weatherFilteredActivities
      dsimp only
      rw [if_neg hrainn, if_neg h30, if_neg h20, if_pos hcold]
      rw [show outdoor_activities.filter
          (fun a => indoor_cultural_culinary.contains a) = [] from by decide]
      simp [dedupKeepFirst, dedupKeepFirstAux]

/-- C1 witness: clear mild weather with no preferences — the emptiness
characterisation instantiates, and its right-hand side is false there,
so the fallback is non-empty. -/
theorem proposer_length_nodup_nonempty_witness :
    (1 ≤ 5) ∧
    (get_fallback_multiple_activities
        ⟨"Clouds", "overcast clouds", 10, some 60, some ("Y")⟩ 5 [] = [] ↔
      (onlyOutdoorEnabled ([] : List (String × Bool)) ∧
        rainOrStormCondition
          ⟨"Clouds", "overcast clouds", 10, some 60, some ("Y")⟩ = false ∧
        (10 : ℚ) < 5)) :=
  ⟨by decide,
   (proposer_length_nodup_nonempty
      ⟨"Clouds", "overcast clouds", 10, some 60, some ("Y")⟩ 5 [] none).2.2
     (by decide)⟩

/-- C2 counterexample: an exception raised inside the per-keyword search
worker is caught there, yielding a zero-place error bundle that the
collection loop then **drops** (its `places` list is falsy) — the bundle
is not retained, so the returned list is empty. -/
theorem merge_retention_counterexample :
    (get_places_for_all_activities [(("park"), .innerExc ("boom"))] 3 = []) ∧
    (fetchResultBundle ("park") 3 (.innerExc ("boom")) ∉
      get_places_for_all_activities [(("park"), .innerExc ("boom"))] 3) :=
  ⟨by decide, by decide⟩

/-- C2 (amended): for distinct completed keywords, a keyword's bundle
appears in the returned list iff it has at least one place or the error
path at the result wait (`future.result` timeout/exception) fired for
it; an exception raised inside the worker itself yields a zero-place
error bundle that is dropped. -/
theorem merge_retention_amended (completed : List (String × SearchOutcome))
    (cap : Nat) (kw : String) (o : SearchOutcome)
    (hnd : (completed.map Prod.fst).Nodup) (hmem : (kw, o) ∈ completed) :
    fetchResultBundle kw cap o ∈ get_places_for_all_activities completed cap ↔
      ((fetchResultBundle kw cap o).places ≠ [] ∨ ∃ m, o = .outerExc m) := by
  unfold get_places_for_all_activities
  rw [(sortBundlesDesc_perm (collectBundles cap completed)).mem_iff]
  exact mem_collectBundles_iff cap kw o completed hnd hmem

/-- C2 witness: one keyword with places found, one timed out at the
result wait; the timed-out keyword's zero-place error bundle is
retained. -/
theorem merge_retention_amended_witness :
    ((([(("cafe"), SearchOutcome.outerExc ("timeout")),
        (("park"), SearchOutcome.found [⟨some ("p1"), some ("Riverside Park"), none,
          none, none, [], [], none, none, none, none, none, none, none⟩])]).map
        Prod.fst).Nodup) ∧
    ((("cafe"), SearchOutcome.outerExc ("timeout")) ∈
      [(("cafe"), SearchOutcome.outerExc ("timeout")),
       (("park"), SearchOutcome.found [⟨some ("p1"), some ("Riverside Park"), none,
         none, none, [], [], none, none, none, none, none, none, none⟩])]) ∧
    (fetchResultBundle ("cafe") 3 (.outerExc ("timeout")) ∈
        get_places_for_all_activities
          [(("cafe"), SearchOutcome.outerExc ("timeout")),
           (("park"), SearchOutcome.found [⟨some ("p1"), some ("Riverside Park"), none,
             none, none, [], [], none, none, none, none, none, none, none⟩])] 3 ↔
      ((fetchResultBundle ("cafe") 3 (.outerExc ("timeout"))).places ≠ [] ∨
        ∃ m, SearchOutcome.outerExc ("timeout") = .outerExc m)) :=
  ⟨by decide, by decide,
   merge_retention_amended
     [(("cafe"), SearchOutcome.outerExc ("timeout")),
      (("park"), SearchOutcome.found [⟨some ("p1"), some ("Riverside Park"), none,
        none, none, [], [], none, none, none, none, none, none, none⟩])]
     3 ("cafe") (.outerExc ("timeout")) (by decide) (by decide)⟩

end NavixAI
